import Mathlib

/-!
# Shallow embedding of `multicast.go` (package `multicast`)

This file embeds the multicast ring-buffer channel `ChanFoo` and its
operations (`NewChanFoo`, `FastSend`, `Send`, `slideBuffer`, `commitData`,
`Close`, `NewEndpoint`/`NewForChanFoo`, `Cancel`, and the cursor moves
performed by `Range`) as pure Lean functions over an explicit state record,
and proves the specification claims about them.

Modelling conventions, stated once here:

* `uint64` counters (`begin`, `end`, `commit`, `write`, cursors) are modelled
  as `Nat`.  The code's counters are monotone nanosecond/slot counters that
  the implementation assumes never wrap around `2^64` during the channel's
  lifetime; where wrap-around of a *subtraction* is actually reachable
  (`commit - keep` with `keep = 2^64-1` in `NewForChanFoo`) the Go branch
  structure makes the truncated `Nat` subtraction agree with the `uint64`
  subtraction, which is proved where it matters (hypotheses `begin ≤ commit`
  and `commit < 2^64`).
* The cursor sentinel `parked = 2^64-1` is modelled as `Option.none`; a
  live cursor `k` is `some k`.  This is faithful as long as real cursors
  stay below `2^64-1`, which the code assumes.
* Go slices `buffer`/`written`/`entry` are modelled as index functions
  together with their length (`size`, resp. `capacity`); slot indexing uses
  the source's `k & mod` written `k &&& mod`.
* `int64` timestamps are modelled as `Int`; the arithmetic right shift
  `>> 1` of an `int64` is floor division `Int.fdiv · 2`, and `& 1` is
  `Int.emod · 2`.
* Operations are given sequential atomic semantics: each exported operation
  (or loop iteration of one) runs without interference, so a CAS whose
  failure requires a concurrent writer always succeeds.  Spin loops
  (`FastSend`/`Send` waiting on a full buffer) take explicit fuel and
  return `none` while still spinning; `none` also models the `panic` exits
  (`commitData` range error, zero timestamp in `Send`), i.e. `none` means
  "no completed final state".
* The cache-line padding fields (`pad40` ...) and the `sync.Cond`
  broadcasts have no state-machine content and are not modelled; the
  `endpointsActivity` / `committerActivity` guards are modelled where they
  influence control flow (`commitData`'s early return).
-/

set_option autoImplicit false

namespace Multicast

/-- Activity of committer: `resting uint32 = iota`. -/
def resting : Nat := 0

/-- Activity of committer: `working`. -/
def working : Nat := 1

/-- State of endpoint and channel: `active uint64 = iota`. -/
def active : Nat := 0

/-- State of endpoint and channel: `canceled`. -/
def canceled : Nat := 1

/-- State of endpoint and channel: `closed`. -/
def closed : Nat := 2

/-- `ReplayAll uint64 = math.MaxUint64`. -/
def ReplayAll : Nat := 2 ^ 64 - 1

/-- `type ChannelError string`. -/
abbrev ChannelError := String

/-- `const ErrOutOfEndpoints = ChannelError("out of endpoints")`. -/
def ErrOutOfEndpoints : ChannelError := "out of endpoints"

/-- One record of the endpoint table (`type EndpointFoo struct`).  The
back-pointer `*ChanFoo` is not modelled (it always denotes the channel the
record belongs to); the `parked` cursor sentinel is `none`. -/
structure EndpointFoo where
  cursor : Option Nat
  endpointState : Nat
  lastActive : Nat
  endpointClosed : Nat
deriving Repr, DecidableEq

/-- Go's zero value of an `EndpointFoo` record (`make([]EndpointFoo, n)`
zero-initializes: `cursor = 0`, states `0`, zero time). -/
def zeroEndpoint : EndpointFoo :=
  { cursor := some 0, endpointState := active, lastActive := 0, endpointClosed := 0 }

/-- The channel state (`type ChanFoo struct` merged with the embedded
`endpointsFoo` table).  `size` is `len(buffer) = len(written)` and
`capacity` is `len(endpoints.entry)`, the lengths the Go slices carry. -/
structure ChanFoo (α : Type) where
  buffer : Nat → α
  size : Nat
  begin : Nat
  end_ : Nat
  commit : Nat
  mod : Nat
  entry : Nat → EndpointFoo
  len : Nat
  capacity : Nat
  err : Option String
  channelState : Nat
  write : Nat
  start : Nat
  written : Nat → Int
  committerActivity : Nat

variable {α : Type}

/-- Ceiling base-2 logarithm of `n` for `n ≥ 1`, structurally recursive in
a fuel argument (`log2CeilAux n n` computes `⌈log2 n⌉`): the recursion
`m ↦ ⌈m/2⌉ = (m+1)/2` mirrors the exact-real value of
`math.Ceil(math.Log2(float64 m))` used by `NewChanFoo`. -/
def log2CeilAux : Nat → Nat → Nat
  | 0, _ => 0
  | Nat.succ fuel, m => if m ≤ 1 then 0 else log2CeilAux fuel ((m + 1) / 2) + 1

/-- `size := uint64(1) << uint(math.Ceil(math.Log2(float64(bufferCapacity))))`.
For `bufferCapacity ≥ 1` this is `2 ^ ⌈log2 bufferCapacity⌉`, idealizing
`math.Log2`/`math.Ceil` as exact real operations (exact for every feasible
capacity; `float64` rounding only diverges above `2^49`-sized capacities).
For `bufferCapacity = 0`, `math.Log2(0) = -Inf` and the conversion
`uint(-Inf)` is implementation-defined in Go; on amd64 it yields `2^63`, so
the shift `1 << 2^63` overflows to `0` and the allocated size is `0` — not
the `1` promised by the function's doc comment (see claim C5). -/
def chanSize (bufferCapacity : Nat) : Nat :=
  if bufferCapacity = 0 then 0 else 2 ^ log2CeilAux bufferCapacity bufferCapacity

/-- `func NewChanFoo(bufferCapacity int, endpointCapacity int) *ChanFoo`.
`now` stands for `time.Now()`. -/
def NewChanFoo (α : Type) [Inhabited α] (bufferCapacity endpointCapacity now : Nat) :
    ChanFoo α :=
  let size := chanSize bufferCapacity
  { buffer := fun _ => default
    size := size
    begin := 0
    end_ := size
    commit := 0
    mod := size - 1
    entry := fun _ => zeroEndpoint
    len := 0
    capacity := endpointCapacity
    err := none
    channelState := active
    write := 0
    start := now
    written := fun _ => 0
    committerActivity := resting }

/-- Store a whole record into the endpoint table at index `i`. -/
def setEntry (c : ChanFoo α) (i : Nat) (ep : EndpointFoo) : ChanFoo α :=
  { c with entry := fun j => if j = i then ep else c.entry j }

/-- The scan of `slideBuffer`'s `Access` callback over `entry[0..n)`:
minimum of the non-parked cursors, `none` if all are parked
(`slowestCursor` starts at `parked` and is lowered by each smaller load). -/
def minCursorAux (f : Nat → Option Nat) : Nat → Option Nat
  | 0 => none
  | Nat.succ n =>
    match minCursorAux f n, f n with
    | none, x => x
    | some m, none => some m
    | some m, some x => some (min m x)

/-- Minimum non-parked endpoint cursor over the first `len` table entries. -/
def minCursor (c : ChanFoo α) : Option Nat :=
  minCursorAux (fun i => (c.entry i).cursor) c.len

/-- Whether `slideBuffer`'s window test `begin < slowestCursor ≤ end`
succeeds on `c` (with all-parked `slowestCursor` failing it, as in the code
where `end < parked`). -/
def slideProgress (c : ChanFoo α) : Bool :=
  match minCursor c with
  | none => false
  | some s => decide (c.begin < s ∧ s ≤ c.end_)

/-- `func (c *ChanFoo) slideBuffer() bool`.  Returns the updated state and
the `more` result: `true` when the window moved, otherwise
`channelState == active` (one sequential call, so the `spinlock` /
`Gosched` path has no state effect). -/
def slideBuffer (c : ChanFoo α) : ChanFoo α × Bool :=
  match minCursor c with
  | some s =>
    if c.begin < s ∧ s ≤ c.end_ then
      if c.mod < 16 then
        ({ c with begin := c.begin + 1, end_ := c.end_ + 1 }, true)
      else
        ({ c with begin := s, end_ := s + c.mod + 1 }, true)
    else (c, decide (c.channelState = active))
  | none => (c, decide (c.channelState = active))

/-- The publishing tail of `FastSend` once `commit != end`:
`buffer[commit&mod] = value; AddUint64(&commit, 1)`. -/
def fastSendPub (v : α) (c : ChanFoo α) : ChanFoo α :=
  { c with
    buffer := fun j => if j = (c.commit &&& c.mod) then v else c.buffer j
    commit := c.commit + 1 }

/-- `func (c *ChanFoo) FastSend(value foo)`: spin `for commit == end` calling
`slideBuffer`, abort on close, then publish.  `none` = fuel exhausted while
the code would still be spinning. -/
def FastSend (v : α) : Nat → ChanFoo α → Option (ChanFoo α)
  | 0, _ => none
  | Nat.succ fuel, c =>
    if c.commit = c.end_ then
      match slideBuffer c with
      | (c1, false) => some c1
      | (c1, true) => FastSend v fuel c1
    else some (fastSendPub v c)

/-- The publishing tail of `Send` for reserved index `w` once `w < end`:
`buffer[w&mod] = value; written[w&mod] = t<<1 + 1` with `t` the measured
nanoseconds (`t = 0` panics in the code and is excluded by the caller). -/
def sendPub (w : Nat) (v : α) (t : Nat) (c : ChanFoo α) : ChanFoo α :=
  { c with
    buffer := fun j => if j = (w &&& c.mod) then v else c.buffer j
    written := fun j => if j = (w &&& c.mod) then (t : Int) * 2 + 1 else c.written j }

/-- The spin loop of `Send` for reserved index `w`:
`for w >= end { if !slideBuffer() { return } }` then publish.  `none` =
fuel exhausted while still spinning, or the zero-timestamp panic. -/
def sendLoop (w : Nat) (v : α) (t : Nat) : Nat → ChanFoo α → Option (ChanFoo α)
  | 0, _ => none
  | Nat.succ fuel, c =>
    if c.end_ ≤ w then
      match slideBuffer c with
      | (c1, false) => some c1
      | (c1, true) => sendLoop w v t fuel c1
    else if t = 0 then none else some (sendPub w v t c)

/-- `func (c *ChanFoo) Send(value foo)`: `write := AddUint64(&c.write,1)-1`
reserves the pre-increment index, then the spin/publish loop.  `t` stands
for `time.Since(c.start).Nanoseconds()` measured at the publish. -/
def Send (fuel : Nat) (v : α) (t : Nat) (c : ChanFoo α) : Option (ChanFoo α) :=
  sendLoop c.write v t fuel { c with write := c.write + 1 }

/-- The committer walk of `commitData` starting at `nc`:
`for ; written[nc&mod]&1 == 1; nc++ { AddInt64(&written[nc&mod], -1); if nc >= end { break } }`.
Fuel-recursive; all the properties proved about it hold for every fuel. -/
def commitScan : Nat → ChanFoo α → Nat → ChanFoo α × Nat
  | 0, c, nc => (c, nc)
  | Nat.succ fuel, c, nc =>
    if (c.written (nc &&& c.mod)).emod 2 = 1 then
      let c1 := { c with
        written := fun j =>
          if j = (nc &&& c.mod) then c.written (nc &&& c.mod) - 1 else c.written j }
      if c.end_ ≤ nc then (c1, nc) else commitScan fuel c1 (nc + 1)
    else (c, nc)

/-- `func (c *ChanFoo) commitData() uint64`.  Returns the updated state and
the returned commit value; `none` is the
`panic("commitData: range error ...")` exit (`newcommit > write`).  The CAS
on `commit` cannot fail in one sequential call (the `committerActivity`
guard excludes a second committer), so the swap-error panic is
unreachable here and the CAS is a store. -/
def commitData (c : ChanFoo α) : Option (ChanFoo α × Nat) :=
  if c.write ≤ c.commit then some (c, c.commit)
  else if c.committerActivity ≠ resting then some (c, c.commit)
  else
    let c1 := { c with committerActivity := working }
    let p := commitScan (c1.end_ + 1 - c1.commit) c1 c1.commit
    if p.1.write < p.2 then none
    else
      let c2 := if p.1.commit < p.2 then { p.1 with commit := p.2 } else p.1
      some ({ c2 with committerActivity := resting }, c2.commit)

/-- The parked-slot scan of `NewForChanFoo` when the table is full: the
first index `i < len` whose `cursor` CAS from `parked` succeeds. -/
def parkedIdx (c : ChanFoo α) : Option Nat :=
  (List.range c.len).find? (fun i => decide ((c.entry i).cursor = none))

/-- `func (e *endpointsFoo) NewForChanFoo(c *ChanFoo, keep uint64)`, the body
of `NewEndpoint`.  Returns the updated channel and either the index of the
created endpoint record (`Sum.inl`) or `ErrOutOfEndpoints` (`Sum.inr`);
`none` propagates a `commitData` panic.  `now` stands for `time.Now()`. -/
def NewForChanFoo (keep now : Nat) (c : ChanFoo α) :
    Option (ChanFoo α × (Nat ⊕ ChannelError)) :=
  match commitData c with
  | none => none
  | some (c1, commit) =>
    let beg := c1.begin
    let start := if commit - beg ≤ keep then beg else commit - keep
    if c1.len = c1.capacity then
      match parkedIdx c1 with
      | some i =>
        some (setEntry c1 i
          { c1.entry i with
            cursor := some start
            endpointState := c1.channelState
            lastActive := now }, Sum.inl i)
      | none => some (c1, Sum.inr ErrOutOfEndpoints)
    else
      some ({ setEntry c1 c1.len
        { c1.entry c1.len with
          cursor := some start
          endpointState := c1.channelState
          lastActive := now } with len := c1.len + 1 }, Sum.inl c1.len)

/-- `func (c *ChanFoo) Close(err error)`: CAS `channelState` from `active`
to `closed`; on success record `err` and CAS every endpoint's state from
`active` to `closed`. -/
def Close (e : Option String) (c : ChanFoo α) : ChanFoo α :=
  if c.channelState = active then
    { c with
      channelState := closed
      err := e
      entry := fun i =>
        if i < c.len ∧ (c.entry i).endpointState = active then
          { c.entry i with endpointState := closed }
        else c.entry i }
  else c

/-- `func (e *EndpointFoo) Cancel()`: CAS `endpointState` from `active` to
`canceled` on table entry `i`. -/
def Cancel (i : Nat) (c : ChanFoo α) : ChanFoo α :=
  if (c.entry i).endpointState = active then
    setEntry c i { c.entry i with endpointState := canceled }
  else c

/-- One iteration of `Range`'s delivery loop on entry `i`:
`for ; cursor != commit; AddUint64(&cursor, 1)`. -/
def rangeAdvance (i : Nat) (c : ChanFoo α) : ChanFoo α :=
  match (c.entry i).cursor with
  | some cu =>
    if cu ≠ c.commit then
      setEntry c i { c.entry i with cursor := some (cu + 1) }
    else c
  | none => c

/-- `Range`'s exit stores on a canceled or drained-closed endpoint:
`StoreUint64(&e.cursor, parked)`. -/
def rangePark (i : Nat) (c : ChanFoo α) : ChanFoo α :=
  if (c.entry i).endpointState ≠ active then
    setEntry c i { c.entry i with cursor := none }
  else c

/-- `Range`'s `StoreUint64(&e.endpointState, canceled)` when the `foreach`
callback returns `false`. -/
def rangeCancel (i : Nat) (c : ChanFoo α) : ChanFoo α :=
  setEntry c i { c.entry i with endpointState := canceled }

/-- The age filter of `Range` (lines deciding `emit`): with `maxAge ≠ 0`,
a slot whose marker `>> 1` is non-zero and at most
`nanos - maxAge` is skipped; `maxAge = 0` disables the filter.
`nanos` stands for `time.Since(e.start).Nanoseconds()` and `marker` for the
loaded `written[cursor&mod]`. -/
def rangeEmit (maxAge nanos marker : Int) : Bool :=
  if maxAge ≠ 0 then
    if Int.fdiv marker 2 ≠ 0 ∧ Int.fdiv marker 2 ≤ nanos - maxAge then false
    else true
  else true

/-- Atomic transitions of the sequential interleaving semantics: each
constructor is one exported operation of the channel, or one loop iteration
of an operation whose loop spans blocking points (`FastSend`/`Send` spins,
`Range`'s delivery loop). -/
inductive Step (α : Type) : ChanFoo α → ChanFoo α → Prop where
  | slide (c : ChanFoo α) : Step α c (slideBuffer c).1
  | fastPub (c : ChanFoo α) (v : α) (h : c.commit ≠ c.end_) : Step α c (fastSendPub v c)
  | reserve (c : ChanFoo α) : Step α c { c with write := c.write + 1 }
  | publish (c : ChanFoo α) (w : Nat) (v : α) (t : Nat)
      (hw : w < c.write) (he : w < c.end_) : Step α c (sendPub w v t c)
  | docommit (c c1 : ChanFoo α) (m : Nat) (h : commitData c = some (c1, m)) :
      Step α c c1
  | close (c : ChanFoo α) (e : Option String) : Step α c (Close e c)
  | cancel (c : ChanFoo α) (i : Nat) : Step α c (Cancel i c)
  | newEp (c c1 : ChanFoo α) (r : Nat ⊕ ChannelError) (keep now : Nat)
      (h : NewForChanFoo keep now c = some (c1, r)) : Step α c c1
  | advance (c : ChanFoo α) (i : Nat) : Step α c (rangeAdvance i c)
  | park (c : ChanFoo α) (i : Nat) : Step α c (rangePark i c)
  | rcancel (c : ChanFoo α) (i : Nat) : Step α c (rangeCancel i c)

/-- States reachable from a freshly constructed channel (with a positive
buffer capacity; `bufferCapacity = 0` builds the degenerate size-0 channel
of claim C5) by the operations above. -/
inductive Reach (α : Type) [Inhabited α] : ChanFoo α → Prop where
  | init (n m t : Nat) (h : 1 ≤ n) : Reach α (NewChanFoo α n m t)
  | step (c c' : ChanFoo α) : Reach α c → Step α c c' → Reach α c'

/-- Range constraint of one cursor: parked cursors are unconstrained, a
live cursor lies in `[begin, commit]`. -/
def cursorInRange (b m : Nat) : Option Nat → Prop
  | none => True
  | some cu => b ≤ cu ∧ cu ≤ m

instance (b m : Nat) (o : Option Nat) : Decidable (cursorInRange b m o) :=
  match o with
  | none => isTrue trivial
  | some cu => inferInstanceAs (Decidable (b ≤ cu ∧ cu ≤ m))

/-- The inductive state invariant: the counter chain
`begin ≤ cursor ≤ commit ≤ end` for every live cursor, the constant window
width `end - begin = size = mod + 1`, and the table watermark bound. -/
def Inv (c : ChanFoo α) : Prop :=
  c.begin ≤ c.commit ∧ c.commit ≤ c.end_ ∧
  c.end_ = c.begin + c.size ∧ c.mod + 1 = c.size ∧ c.len ≤ c.capacity ∧
  ∀ i, i < c.len → cursorInRange c.begin c.commit (c.entry i).cursor


theorem minCursorAux_none (f : Nat → Option Nat) (n : Nat) :
    minCursorAux f n = none → ∀ i, i < n → f i = none := by
  induction n with
  | zero => intro _ i hi; omega
  | succ n ih =>
    intro h i hi
    unfold minCursorAux at h
    rcases hm : minCursorAux f n with _ | m <;> rw [hm] at h
    · rcases hf : f n with _ | x <;> rw [hf] at h
      · rcases Nat.lt_succ_iff_lt_or_eq.mp hi with hlt | rfl
        · exact ih hm i hlt
        · exact hf
      · exact absurd h (by simp)
    · rcases hf : f n with _ | x <;> rw [hf] at h <;> exact absurd h (by simp)

theorem minCursorAux_le (f : Nat → Option Nat) (n : Nat) :
    ∀ s, minCursorAux f n = some s → ∀ i, i < n → ∀ cu, f i = some cu → s ≤ cu := by
  induction n with
  | zero => intro s h; simp [minCursorAux] at h
  | succ n ih =>
    intro s h i hi cu hcu
    unfold minCursorAux at h
    rcases hm : minCursorAux f n with _ | m <;> rw [hm] at h
    · rcases Nat.lt_succ_iff_lt_or_eq.mp hi with hlt | rfl
      · rw [minCursorAux_none f n hm i hlt] at hcu; exact absurd hcu (by simp)
      · rw [hcu] at h; cases h; exact Nat.le_refl _
    · rcases hf : f n with _ | x <;> rw [hf] at h
      · cases h
        rcases Nat.lt_succ_iff_lt_or_eq.mp hi with hlt | rfl
        · exact ih s hm i hlt cu hcu
        · rw [hcu] at hf; exact absurd hf (by simp)
      · cases h
        rcases Nat.lt_succ_iff_lt_or_eq.mp hi with hlt | rfl
        · exact Nat.le_trans (Nat.le_trans (Nat.min_le_left m x) (Nat.le_refl _)) (ih m hm i hlt cu hcu)
        · rw [hcu] at hf; cases hf; exact Nat.min_le_right m cu
    
theorem minCursorAux_mem (f : Nat → Option Nat) (n : Nat) :
    ∀ s, minCursorAux f n = some s → ∃ i, i < n ∧ f i = some s := by
  induction n with
  | zero => intro s h; simp [minCursorAux] at h
  | succ n ih =>
    intro s h
    unfold minCursorAux at h
    rcases hm : minCursorAux f n with _ | m <;> rw [hm] at h
    · exact ⟨n, Nat.lt_succ_self n, h⟩
    · rcases hf : f n with _ | x <;> rw [hf] at h
      · cases h
        rcases ih s hm with ⟨i, hi, hfi⟩
        exact ⟨i, Nat.lt_succ_of_lt hi, hfi⟩
      · cases h
        rcases Nat.le_total m x with hmx | hxm
        · have hmin : min m x = m := by omega
          rw [hmin]
          rcases ih m hm with ⟨i, hi, hfi⟩
          exact ⟨i, Nat.lt_succ_of_lt hi, hfi⟩
        · have hmin : min m x = x := by omega
          rw [hmin]
          exact ⟨n, Nat.lt_succ_self n, hf⟩

theorem slideBuffer_frame (c : ChanFoo α) :
    (slideBuffer c).1.commit = c.commit ∧ (slideBuffer c).1.write = c.write ∧
    (slideBuffer c).1.entry = c.entry ∧ (slideBuffer c).1.len = c.len ∧
    (slideBuffer c).1.size = c.size ∧ (slideBuffer c).1.mod = c.mod ∧
    (slideBuffer c).1.capacity = c.capacity ∧
    (slideBuffer c).1.channelState = c.channelState ∧
    (slideBuffer c).1.buffer = c.buffer ∧ (slideBuffer c).1.written = c.written ∧
    (slideBuffer c).1.err = c.err := by
  unfold slideBuffer
  rcases minCursor c with _ | s
  · simp
  · dsimp only
    split
    · split <;> simp
    · simp


theorem minCursor_le (c : ChanFoo α) (s : Nat) (h : minCursor c = some s) :
    ∀ i, i < c.len → ∀ cu, (c.entry i).cursor = some cu → s ≤ cu :=
  fun i hi cu hcu => minCursorAux_le _ _ s h i hi cu hcu

theorem minCursor_mem (c : ChanFoo α) (s : Nat) (h : minCursor c = some s) :
    ∃ i, i < c.len ∧ (c.entry i).cursor = some s :=
  minCursorAux_mem _ _ s h

theorem inv_slide (c : ChanFoo α) (h : Inv c) : Inv (slideBuffer c).1 := by
  obtain ⟨h1, h2, h3, h4, h5, h6⟩ := h
  unfold slideBuffer
  rcases hm : minCursor c with _ | s
  · exact ⟨h1, h2, h3, h4, h5, h6⟩
  · dsimp only
    by_cases hcond : c.begin < s ∧ s ≤ c.end_
    · obtain ⟨i0, hi0, hci0⟩ := minCursor_mem c s hm
      have hs2 : s ≤ c.commit := by
        have h7 := h6 i0 hi0
        rw [hci0] at h7
        exact h7.2
      have hslow := minCursor_le c s hm
      rw [if_pos hcond]
      by_cases hmod : c.mod < 16
      · rw [if_pos hmod]
        refine ⟨by dsimp only; omega, by dsimp only; omega, by dsimp only; omega,
                h4, h5, ?_⟩
        intro i hi
        dsimp only at hi ⊢
        rcases hc : (c.entry i).cursor with _ | cu
        · trivial
        · have := hslow i hi cu hc
          have h7 := h6 i hi
          rw [hc] at h7
          have h8 : c.begin ≤ cu ∧ cu ≤ c.commit := h7
          exact ⟨by omega, by omega⟩
      · rw [if_neg hmod]
        refine ⟨by dsimp only; omega, by dsimp only; omega, by dsimp only; omega,
                h4, h5, ?_⟩
        intro i hi
        dsimp only at hi ⊢
        rcases hc : (c.entry i).cursor with _ | cu
        · trivial
        · have := hslow i hi cu hc
          have h7 := h6 i hi
          rw [hc] at h7
          have h8 : c.begin ≤ cu ∧ cu ≤ c.commit := h7
          exact ⟨by omega, by omega⟩
    · rw [if_neg hcond]
      exact ⟨h1, h2, h3, h4, h5, h6⟩

theorem commitScan_fields (fuel : Nat) :
    ∀ (c : ChanFoo α) (nc : Nat),
      (commitScan fuel c nc).1.begin = c.begin ∧
      (commitScan fuel c nc).1.end_ = c.end_ ∧
      (commitScan fuel c nc).1.commit = c.commit ∧
      (commitScan fuel c nc).1.write = c.write ∧
      (commitScan fuel c nc).1.entry = c.entry ∧
      (commitScan fuel c nc).1.len = c.len ∧
      (commitScan fuel c nc).1.capacity = c.capacity ∧
      (commitScan fuel c nc).1.size = c.size ∧
      (commitScan fuel c nc).1.mod = c.mod ∧
      (commitScan fuel c nc).1.channelState = c.channelState ∧
      (commitScan fuel c nc).1.buffer = c.buffer ∧
      (commitScan fuel c nc).1.err = c.err ∧
      (commitScan fuel c nc).1.committerActivity = c.committerActivity := by
  induction fuel with
  | zero => intro c nc; exact ⟨rfl, rfl, rfl, rfl, rfl, rfl, rfl, rfl, rfl, rfl, rfl, rfl, rfl⟩
  | succ fuel ih =>
    intro c nc
    unfold commitScan
    split
    · dsimp only
      split
      · exact ⟨rfl, rfl, rfl, rfl, rfl, rfl, rfl, rfl, rfl, rfl, rfl, rfl, rfl⟩
      · exact ih _ (nc + 1)
    · exact ⟨rfl, rfl, rfl, rfl, rfl, rfl, rfl, rfl, rfl, rfl, rfl, rfl, rfl⟩

theorem commitScan_nc_lower (fuel : Nat) :
    ∀ (c : ChanFoo α) (nc : Nat), nc ≤ (commitScan fuel c nc).2 := by
  induction fuel with
  | zero => intro c nc; exact Nat.le_refl _
  | succ fuel ih =>
    intro c nc
    unfold commitScan
    split
    · dsimp only
      split
      · exact Nat.le_refl _
      · exact Nat.le_trans (Nat.le_succ nc) (ih _ (nc + 1))
    · exact Nat.le_refl _

theorem commitScan_nc_upper (fuel : Nat) :
    ∀ (c : ChanFoo α) (nc : Nat), nc ≤ c.end_ → (commitScan fuel c nc).2 ≤ c.end_ := by
  induction fuel with
  | zero => intro c nc h; exact h
  | succ fuel ih =>
    intro c nc h
    unfold commitScan
    split
    · dsimp only
      split
      · exact h
      · rename_i hodd hend
        exact ih _ (nc + 1) (by dsimp only; omega)
    · exact h

theorem commitData_some (c c1 : ChanFoo α) (m : Nat) (h : commitData c = some (c1, m)) :
    m = c1.commit ∧ c.commit ≤ c1.commit ∧
    (c.commit ≤ c.end_ → c1.commit ≤ c.end_) ∧
    c1.begin = c.begin ∧ c1.end_ = c.end_ ∧ c1.entry = c.entry ∧
    c1.len = c.len ∧ c1.capacity = c.capacity ∧ c1.size = c.size ∧
    c1.mod = c.mod ∧ c1.write = c.write ∧ c1.channelState = c.channelState ∧
    c1.buffer = c.buffer ∧ c1.err = c.err := by
  unfold commitData at h
  split at h
  · rw [Option.some_inj] at h
    injection h with h1 h2
    subst h1; subst h2
    exact ⟨rfl, Nat.le_refl _, fun h => h, rfl, rfl, rfl, rfl, rfl, rfl, rfl, rfl, rfl, rfl, rfl⟩
  · split at h
    · rw [Option.some_inj] at h
      injection h with h1 h2
      subst h1; subst h2
      exact ⟨rfl, Nat.le_refl _, fun h => h, rfl, rfl, rfl, rfl, rfl, rfl, rfl, rfl, rfl, rfl, rfl⟩
    · dsimp only at h
      split at h
      · exact absurd h (by simp)
      · rw [Option.some_inj] at h
        injection h with h1 h2
        subst h1; subst h2
        obtain ⟨f1, f2, f3, f4, f5, f6, f7, f8, f9, f10, f11, f12, f13⟩ :=
          commitScan_fields (c.end_ + 1 - c.commit) { c with committerActivity := working } c.commit
        have hlow := commitScan_nc_lower (c.end_ + 1 - c.commit)
          { c with committerActivity := working } c.commit
        have hup := commitScan_nc_upper (c.end_ + 1 - c.commit)
          { c with committerActivity := working } c.commit
        dsimp only at f1 f2 f3 f4 f5 f6 f7 f8 f9 f10 f11 f12 f13 hup
        split
        · dsimp only
          refine ⟨rfl, by omega, fun hce => ?_, f1, f2, f5, f6, f7, f8, f9, f4, f10, f11, f12⟩
          exact hup (by omega)
        · dsimp only
          refine ⟨rfl, by omega, fun hce => by omega, f1, f2, f5, f6, f7, f8, f9, f4, f10, f11, f12⟩

theorem cursorInRange_mono {b b2 m m2 : Nat} {o : Option Nat} (hb : b2 ≤ b)
    (hm : m ≤ m2) (h : cursorInRange b m o) : cursorInRange b2 m2 o := by
  rcases o with _ | cu
  · trivial
  · have h2 : b ≤ cu ∧ cu ≤ m := h
    exact ⟨Nat.le_trans hb h2.1, Nat.le_trans h2.2 hm⟩

theorem inv_fastPub (c : ChanFoo α) (v : α) (hne : c.commit ≠ c.end_) (h : Inv c) :
    Inv (fastSendPub v c) := by
  obtain ⟨h1, h2, h3, h4, h5, h6⟩ := h
  have hlt : c.commit < c.end_ := Nat.lt_of_le_of_ne h2 hne
  refine ⟨?_, ?_, ?_, h4, h5, ?_⟩ <;> dsimp only [fastSendPub]
  · omega
  · omega
  · omega
  · intro i hi
    exact cursorInRange_mono (Nat.le_refl _) (Nat.le_succ _) (h6 i hi)

theorem inv_commitData (c c1 : ChanFoo α) (m : Nat) (h : commitData c = some (c1, m))
    (hI : Inv c) : Inv c1 := by
  obtain ⟨h1, h2, h3, h4, h5, h6⟩ := hI
  obtain ⟨hm, hcm, hce, g1, g2, g3, g4, g5, g6, g7, g8, g9, g10, g11⟩ :=
    commitData_some c c1 m h
  have hce2 := hce h2
  refine ⟨by omega, by omega, by omega, by omega, by omega, ?_⟩
  intro i hi
  rw [g3, g1]
  exact cursorInRange_mono (Nat.le_refl _) hcm (h6 i (by omega))

theorem inv_close (c : ChanFoo α) (e : Option String) (h : Inv c) : Inv (Close e c) := by
  obtain ⟨h1, h2, h3, h4, h5, h6⟩ := h
  unfold Close
  split
  · refine ⟨h1, h2, h3, h4, h5, ?_⟩
    intro i hi
    dsimp only at hi ⊢
    split
    · exact h6 i hi
    · exact h6 i hi
  · exact ⟨h1, h2, h3, h4, h5, h6⟩

theorem inv_setEntryState (c : ChanFoo α) (i st : Nat) (h : Inv c) :
    Inv (setEntry c i { c.entry i with endpointState := st }) := by
  obtain ⟨h1, h2, h3, h4, h5, h6⟩ := h
  refine ⟨h1, h2, h3, h4, h5, ?_⟩
  intro j hj
  dsimp only [setEntry] at hj ⊢
  by_cases hji : j = i
  · rw [if_pos hji]
    subst hji
    exact h6 j hj
  · rw [if_neg hji]
    exact h6 j hj

theorem inv_cancel (c : ChanFoo α) (i : Nat) (h : Inv c) : Inv (Cancel i c) := by
  unfold Cancel
  split
  · exact inv_setEntryState c i canceled h
  · exact h

theorem inv_rcancel (c : ChanFoo α) (i : Nat) (h : Inv c) : Inv (rangeCancel i c) :=
  inv_setEntryState c i canceled h

theorem inv_park (c : ChanFoo α) (i : Nat) (h : Inv c) : Inv (rangePark i c) := by
  obtain ⟨h1, h2, h3, h4, h5, h6⟩ := h
  unfold rangePark
  split
  · refine ⟨h1, h2, h3, h4, h5, ?_⟩
    intro j hj
    dsimp only [setEntry] at hj ⊢
    by_cases hji : j = i
    · rw [if_pos hji]
      trivial
    · rw [if_neg hji]
      exact h6 j hj
  · exact ⟨h1, h2, h3, h4, h5, h6⟩

theorem inv_advance (c : ChanFoo α) (i : Nat) (h : Inv c) : Inv (rangeAdvance i c) := by
  obtain ⟨h1, h2, h3, h4, h5, h6⟩ := h
  unfold rangeAdvance
  rcases hc : (c.entry i).cursor with _ | cu
  · exact ⟨h1, h2, h3, h4, h5, h6⟩
  · dsimp only
    split
    · rename_i hne
      refine ⟨h1, h2, h3, h4, h5, ?_⟩
      intro j hj
      dsimp only [setEntry] at hj ⊢
      by_cases hji : j = i
      · rw [if_pos hji]
        subst hji
        have h7 : c.begin ≤ cu ∧ cu ≤ c.commit := by
          have h8 := h6 j hj
          rw [hc] at h8
          exact h8
        exact ⟨by omega, by omega⟩
      · rw [if_neg hji]
        exact h6 j hj
    · exact ⟨h1, h2, h3, h4, h5, h6⟩

theorem parkedIdx_some (c : ChanFoo α) (i : Nat) (h : parkedIdx c = some i) :
    i < c.len ∧ (c.entry i).cursor = none := by
  unfold parkedIdx at h
  constructor
  · exact List.mem_range.mp (List.mem_of_find?_eq_some h)
  · have h2 := List.find?_some h
    simpa using h2

theorem inv_newEp (c c1 : ChanFoo α) (r : Nat ⊕ ChannelError) (keep now : Nat)
    (h : NewForChanFoo keep now c = some (c1, r)) (hI : Inv c) : Inv c1 := by
  unfold NewForChanFoo at h
  rcases hcd : commitData c with _ | p
  · rw [hcd] at h
    exact absurd h (by simp)
  · rw [hcd] at h
    obtain ⟨ca, m⟩ := p
    have hIa : Inv ca := inv_commitData c ca m hcd hI
    have hm : m = ca.commit := (commitData_some c ca m hcd).1
    obtain ⟨a1, a2, a3, a4, a5, a6⟩ := hIa
    have hstart : ca.begin ≤ (if m - ca.begin ≤ keep then ca.begin else m - keep) ∧
        (if m - ca.begin ≤ keep then ca.begin else m - keep) ≤ ca.commit := by
      split <;> constructor <;> omega
    dsimp only at h
    split at h
    · rcases hp : parkedIdx ca with _ | i
      · rw [hp] at h
        rw [Option.some_inj] at h
        injection h with hh1 hh2
        subst hh1
        exact ⟨a1, a2, a3, a4, a5, a6⟩
      · rw [hp] at h
        rw [Option.some_inj] at h
        injection h with hh1 hh2
        subst hh1
        refine ⟨a1, a2, a3, a4, a5, ?_⟩
        intro j hj
        dsimp only [setEntry] at hj ⊢
        by_cases hji : j = i
        · rw [if_pos hji]
          exact ⟨hstart.1, hstart.2⟩
        · rw [if_neg hji]
          exact a6 j hj
    · rename_i hlen
      rw [Option.some_inj] at h
      injection h with hh1 hh2
      subst hh1
      refine ⟨a1, a2, a3, a4, by dsimp only [setEntry]; omega, ?_⟩
      intro j hj
      dsimp only [setEntry] at hj ⊢
      by_cases hji : j = ca.len
      · rw [if_pos hji]
        exact ⟨hstart.1, hstart.2⟩
      · rw [if_neg hji]
        exact a6 j (by omega)

theorem chanSize_pos (n : Nat) (h : 1 ≤ n) : 1 ≤ chanSize n := by
  unfold chanSize
  rw [if_neg (by omega)]
  exact Nat.one_le_two_pow

theorem inv_init (n m t : Nat) [Inhabited α] (h : 1 ≤ n) :
    Inv (NewChanFoo α n m t) := by
  have hs := chanSize_pos n h
  refine ⟨?_, ?_, ?_, ?_, ?_, ?_⟩ <;> dsimp only [NewChanFoo]
  · exact Nat.le_refl _
  · exact Nat.zero_le _
  · omega
  · omega
  · exact Nat.zero_le _
  · intro i hi
    omega

theorem inv_step (c c' : ChanFoo α) (h : Step α c c') (hI : Inv c) : Inv c' := by
  cases h with
  | slide => exact inv_slide c hI
  | fastPub v hne => exact inv_fastPub c v hne hI
  | reserve => exact hI
  | publish w v t hw he => exact hI
  | docommit c1 m hcd => exact inv_commitData c c' m hcd hI
  | close e => exact inv_close c e hI
  | cancel i => exact inv_cancel c i hI
  | newEp c1 r keep now hne => exact inv_newEp c c' r keep now hne hI
  | advance i => exact inv_advance c i hI
  | park i => exact inv_park c i hI
  | rcancel i => exact inv_rcancel c i hI

theorem inv_of_reach [Inhabited α] (c : ChanFoo α) (h : Reach α c) : Inv c := by
  induction h with
  | init n m t h => exact inv_init n m t h
  | step c c' hr hs ih => exact inv_step c c' hs ih

theorem sendLoop_commit_write (w : Nat) (v : α) (t : Nat) (fuel : Nat) :
    ∀ (c c' : ChanFoo α), sendLoop w v t fuel c = some c' →
      c'.commit = c.commit ∧ c'.write = c.write := by
  induction fuel with
  | zero => intro c c' h; exact absurd h (by simp [sendLoop])
  | succ fuel ih =>
    intro c c' h
    unfold sendLoop at h
    split at h
    · rcases hsb : slideBuffer c with ⟨c1, b⟩
      rw [hsb] at h
      have hf := slideBuffer_frame c
      rw [hsb] at hf
      rcases b with _ | _
      · rw [Option.some_inj] at h
        subst h
        exact ⟨hf.1, hf.2.1⟩
      · have h2 := ih c1 c' h
        exact ⟨h2.1.trans hf.1, h2.2.trans hf.2.1⟩
    · split at h
      · exact absurd h (by simp)
      · rw [Option.some_inj] at h
        subst h
        exact ⟨rfl, rfl⟩

theorem Send_commit_write (fuel : Nat) (v : α) (t : Nat) (c c' : ChanFoo α)
    (h : Send fuel v t c = some c') : c'.commit = c.commit ∧ c'.write = c.write + 1 := by
  unfold Send at h
  exact sendLoop_commit_write c.write v t fuel _ c' h

theorem slideBuffer_false (c c1 : ChanFoo α) (h : slideBuffer c = (c1, false)) :
    c1 = c ∧ slideProgress c = false ∧ c.channelState ≠ active := by
  unfold slideBuffer at h
  unfold slideProgress
  rcases hm : minCursor c with _ | s <;> rw [hm] at h <;> dsimp only at h ⊢
  · injection h with h1 h2
    exact ⟨h1.symm, rfl, by simpa using h2⟩
  · split at h
    · split at h <;> (injection h with h1 h2; exact absurd h2 (by simp))
    · rename_i hcond
      injection h with h1 h2
      exact ⟨h1.symm, decide_eq_false hcond, by simpa using h2⟩

theorem sendLoop_closed_dichotomy (w : Nat) (v : α) (t : Nat) (fuel : Nat) :
    ∀ (c c' : ChanFoo α), c.channelState ≠ active → t ≠ 0 →
      sendLoop w v t fuel c = some c' →
      (c'.buffer (w &&& c.mod) = v ∧ c'.written (w &&& c.mod) = (t : Int) * 2 + 1 ∧
        c'.commit = c.commit ∧ w < c'.end_) ∨
      (c'.buffer = c.buffer ∧ c'.written = c.written ∧ c'.commit = c.commit ∧
        c.end_ ≤ w ∧ c'.end_ ≤ w ∧ slideProgress c' = false) := by
  induction fuel with
  | zero => intro c c' _ _ h; exact absurd h (by simp [sendLoop])
  | succ fuel ih =>
    intro c c' hcs ht h
    unfold sendLoop at h
    split at h
    · rename_i hfull
      rcases hsb : slideBuffer c with ⟨cs, b⟩
      rw [hsb] at h
      rcases b with _ | _
      · rw [Option.some_inj] at h
        obtain ⟨he, hnp, _⟩ := slideBuffer_false c cs hsb
        subst he
        subst h
        exact Or.inr ⟨rfl, rfl, rfl, hfull, hfull, hnp⟩
      · have hf := slideBuffer_frame c
        rw [hsb] at hf
        have hcs2 : cs.channelState ≠ active := by
          rw [hf.2.2.2.2.2.2.2.1]
          exact hcs
        rcases ih cs c' hcs2 ht h with hL | hR
        · left
          rw [hf.2.2.2.2.2.1] at hL
          exact ⟨hL.1, hL.2.1, hL.2.2.1.trans hf.1, hL.2.2.2⟩
        · right
          refine ⟨hR.1.trans hf.2.2.2.2.2.2.2.2.1, hR.2.1.trans hf.2.2.2.2.2.2.2.2.2.1,
            hR.2.2.1.trans hf.1, hfull, hR.2.2.2.2.1, hR.2.2.2.2.2⟩
    · rename_i hroom
      rw [Option.some_inj] at h
      subst h
      left
      refine ⟨?_, ?_, rfl, ?_⟩
      · dsimp only [sendPub]
        rw [if_pos rfl]
      · dsimp only [sendPub]
        rw [if_pos rfl]
      · dsimp only [sendPub]
        omega

theorem slideBuffer_noprogress (c : ChanFoo α) (hnp : slideProgress c = false)
    (hcs : c.channelState ≠ active) : slideBuffer c = (c, false) := by
  unfold slideBuffer
  unfold slideProgress at hnp
  rcases hm : minCursor c with _ | s <;> rw [hm] at hnp
  · dsimp only
    rw [decide_eq_false hcs]
  · dsimp only at hnp ⊢
    rw [if_neg (by simpa using hnp), decide_eq_false hcs]

theorem newFor_inl_cursor (c c1 c' : ChanFoo α) (keep now i m : Nat)
    (hcd : commitData c = some (c1, m))
    (hn : NewForChanFoo keep now c = some (c', Sum.inl i)) :
    (c'.entry i).cursor =
      some (if m - c1.begin ≤ keep then c1.begin else m - keep) := by
  unfold NewForChanFoo at hn
  rw [hcd] at hn
  dsimp only at hn
  split at hn
  · rcases hp : parkedIdx c1 with _ | j <;> rw [hp] at hn
    · rw [Option.some_inj] at hn
      injection hn with hh1 hh2
      exact absurd hh2 (by simp)
    · rw [Option.some_inj] at hn
      injection hn with hh1 hh2
      injection hh2 with hji
      subst hji
      subst hh1
      dsimp only [setEntry]
      rw [if_pos rfl]
  · rw [Option.some_inj] at hn
    injection hn with hh1 hh2
    injection hh2 with hji
    subst hji
    subst hh1
    dsimp only [setEntry]
    rw [if_pos rfl]

theorem newFor_recycle (c c1 c' : ChanFoo α) (keep now i m : Nat)
    (hcd : commitData c = some (c1, m))
    (hfull : c.len = c.capacity)
    (hn : NewForChanFoo keep now c = some (c', Sum.inl i)) :
    (c'.entry i).endpointClosed = (c.entry i).endpointClosed ∧
    (c'.entry i).cursor = some (if m - c.begin ≤ keep then c.begin else m - keep) ∧
    (c'.entry i).endpointState = c.channelState ∧
    (c'.entry i).lastActive = now ∧
    (∀ j, j ≠ i → c'.entry j = c.entry j) ∧
    (c.entry i).cursor = none ∧ i < c.len := by
  obtain ⟨hm, hcm, hce, g1, g2, g3, g4, g5, g6, g7, g8, g9, g10, g11⟩ :=
    commitData_some c c1 m hcd
  unfold NewForChanFoo at hn
  rw [hcd] at hn
  dsimp only at hn
  split at hn
  · rcases hp : parkedIdx c1 with _ | j <;> rw [hp] at hn
    · rw [Option.some_inj] at hn
      injection hn with hh1 hh2
      exact absurd hh2 (by simp)
    · rw [Option.some_inj] at hn
      injection hn with hh1 hh2
      injection hh2 with hji
      subst hji
      subst hh1
      obtain ⟨hjlen, hjpark⟩ := parkedIdx_some c1 _ hp
      rw [g3] at hjpark
      rw [g4] at hjlen
      refine ⟨?_, ?_, ?_, ?_, ?_, hjpark, hjlen⟩
      · dsimp only [setEntry]
        rw [if_pos rfl, g3]
      · dsimp only [setEntry]
        rw [if_pos rfl, g1]
      · dsimp only [setEntry]
        rw [if_pos rfl, g9]
      · dsimp only [setEntry]
        rw [if_pos rfl]
      · intro j hji
        dsimp only [setEntry]
        rw [if_neg hji, g3]
  · rename_i hne
    rw [g4, g5] at hne
    exact absurd hfull hne

theorem close_begin_end (c : ChanFoo α) (e : Option String) :
    (Close e c).begin = c.begin ∧ (Close e c).end_ = c.end_ := by
  unfold Close
  split <;> exact ⟨rfl, rfl⟩

theorem cancel_begin_end (c : ChanFoo α) (i : Nat) :
    (Cancel i c).begin = c.begin ∧ (Cancel i c).end_ = c.end_ := by
  unfold Cancel
  split <;> exact ⟨rfl, rfl⟩

theorem rangeAdvance_begin_end (c : ChanFoo α) (i : Nat) :
    (rangeAdvance i c).begin = c.begin ∧ (rangeAdvance i c).end_ = c.end_ := by
  unfold rangeAdvance
  split
  · split
    · exact ⟨rfl, rfl⟩
    · exact ⟨rfl, rfl⟩
  · exact ⟨rfl, rfl⟩

theorem rangePark_begin_end (c : ChanFoo α) (i : Nat) :
    (rangePark i c).begin = c.begin ∧ (rangePark i c).end_ = c.end_ := by
  unfold rangePark
  split <;> exact ⟨rfl, rfl⟩

theorem newFor_begin_end (c c3 : ChanFoo α) (r : Nat ⊕ ChannelError) (keep now : Nat)
    (h : NewForChanFoo keep now c = some (c3, r)) :
    c3.begin = c.begin ∧ c3.end_ = c.end_ := by
  unfold NewForChanFoo at h
  rcases hcd : commitData c with _ | p
  · rw [hcd] at h
    exact absurd h (by simp)
  · rw [hcd] at h
    obtain ⟨ca, m⟩ := p
    obtain ⟨_, _, _, g1, g2, _⟩ := commitData_some c ca m hcd
    dsimp only at h
    split at h
    · rcases hp : parkedIdx ca with _ | i <;> rw [hp] at h <;>
        rw [Option.some_inj] at h
      · injection h with hh1 hh2
        subst hh1
        exact ⟨g1, g2⟩
      · injection h with hh1 hh2
        subst hh1
        exact ⟨g1, g2⟩
    · rw [Option.some_inj] at h
      injection h with hh1 hh2
      subst hh1
      exact ⟨g1, g2⟩

/-! ### Concrete states used by counterexamples and witnesses -/

/-- State reached by one `FastSend` on a fresh `NewChanFoo(1, 1)` channel. -/
def fastSentChan : ChanFoo Nat := fastSendPub 7 (NewChanFoo Nat 1 1 0)

/-- A fresh `NewChanFoo(4, 1)` channel closed with a `nil` error. -/
def closedChan : ChanFoo Nat := Close none (NewChanFoo Nat 4 1 0)

/-- A fresh `NewChanFoo(1, 1)` channel (endpoint table capacity 1). -/
def recycleChan0 : ChanFoo Nat := NewChanFoo Nat 1 1 0

/-- `recycleChan0` after `NewEndpoint(0)` created the single endpoint. -/
def recycleChan1 : ChanFoo Nat :=
  match NewForChanFoo 0 1 recycleChan0 with
  | some (c, _) => c
  | none => recycleChan0

/-- `recycleChan1` after `Cancel` on that endpoint (which never ran `Range`). -/
def recycleChan2 : ChanFoo Nat := Cancel 0 recycleChan1

/-- C1 counterexample state is reachable: a fresh capacity-1 channel after one
`FastSend` publish. -/
theorem fastSentChan_reach : Reach Nat fastSentChan :=
  Reach.step _ _ (Reach.init 1 1 0 (by decide)) (Step.fastPub _ 7 (by decide))

/-- State after the first `Send(4)` on a fresh `NewChanFoo(1, 1)` channel:
the single slot is reserved and published, `write = end = 1`. -/
def c1sendChan1 : ChanFoo Nat :=
  match Send 1 4 1 (NewChanFoo Nat 1 1 0) with
  | some cc => cc
  | none => NewChanFoo Nat 1 1 0

/-- `c1sendChan1` closed with a `nil` error: a full, closed channel. -/
def c1sendChan2 : ChanFoo Nat := Close none c1sendChan1

/-- `c1sendChan2` after a second, completing `Send(6)`: the reservation
increments `write` to `2`, the spin loop finds `write - 1 = 1 ≥ end`, the
window cannot slide (no endpoint), and the closed channel aborts the send —
with `write = 2 > 1 = end` left behind. -/
def c1sendChan3 : ChanFoo Nat :=
  match Send 1 6 1 c1sendChan2 with
  | some cc => cc
  | none => c1sendChan2

/-- The aborted-`Send` state is reachable (reserve, publish, close,
reserve). -/
theorem c1sendChan3_reach : Reach Nat c1sendChan3 :=
  Reach.step _ _
    (Reach.step _ _
      (Reach.step _ _
        (Reach.step _ _ (Reach.init 1 1 0 (by decide)) (Step.reserve _))
        (Step.publish _ 0 4 1 (by decide) (by decide)))
      (Step.close _ none))
    (Step.reserve _)

/-- C1, counterexample: two reachable states refute the `commit ≤ write ≤ end`
segment of the claimed chain.  After one `FastSend` on a fresh channel,
`commit = 1 > 0 = write` (`FastSend` publishes by advancing `commit` and
never touches `write`), so `commit ≤ write` fails; and after the completing
`Send` on the full closed channel `c1sendChan2`, `write = 2 > 1 = end`
(`Send` reserves by incrementing `write` before it looks at the window), so
`write ≤ end` fails as well. -/
theorem fastSend_breaks_commit_le_write :
    (Reach Nat fastSentChan ∧ fastSentChan.write < fastSentChan.commit) ∧
    (Reach Nat c1sendChan3 ∧ Send 1 6 1 c1sendChan2 = some c1sendChan3 ∧
      c1sendChan3.end_ < c1sendChan3.write) :=
  ⟨⟨fastSentChan_reach, by decide⟩, ⟨c1sendChan3_reach, rfl, by decide⟩⟩

/-- C1 (amended): in every reachable state the counter chain
`begin ≤ cursor ≤ commit ≤ end` holds for every non-parked endpoint cursor
(parked cursors excluded).  The `commit ≤ write ≤ end` segment of the
claimed chain is not invariant — `FastSend` increments `commit` without
touching `write`, and a `Send` completing on a full closed channel leaves
`write > end` (both refuted in the counterexample) — but `Send` itself
preserves `commit ≤ write`: a completing `Send` never changes `commit` and
increments `write` by exactly one. -/
theorem counter_chain_invariant {α : Type} [Inhabited α] (c : ChanFoo α)
    (hr : Reach α c) :
    (c.begin ≤ c.commit ∧ c.commit ≤ c.end_ ∧
      ∀ i, i < c.len → cursorInRange c.begin c.commit (c.entry i).cursor) ∧
    (∀ (fuel t : Nat) (v : α) (c' : ChanFoo α),
      Send fuel v t c = some c' → c.commit ≤ c.write → c'.commit ≤ c'.write) := by
  obtain ⟨h1, h2, h3, h4, h5, h6⟩ := inv_of_reach c hr
  refine ⟨⟨h1, h2, h6⟩, ?_⟩
  intro fuel t v c' hsend hcw
  obtain ⟨e1, e2⟩ := Send_commit_write fuel v t c c' hsend
  omega

/-- Witness for C1's amended theorem at a fresh `NewChanFoo(1, 1)` channel
(its only hypothesis, reachability, discharged by construction) and one
`Send` for the preservation clause. -/
theorem counter_chain_invariant_witness :
    ((NewChanFoo Nat 1 1 0).begin ≤ (NewChanFoo Nat 1 1 0).commit ∧
      (NewChanFoo Nat 1 1 0).commit ≤ (NewChanFoo Nat 1 1 0).end_) ∧
    (sendPub 0 5 1 { NewChanFoo Nat 1 1 0 with
        write := (NewChanFoo Nat 1 1 0).write + 1 }).commit ≤
      (sendPub 0 5 1 { NewChanFoo Nat 1 1 0 with
        write := (NewChanFoo Nat 1 1 0).write + 1 }).write :=
  ⟨⟨(counter_chain_invariant (NewChanFoo Nat 1 1 0)
        (Reach.init 1 1 0 (by decide))).1.1,
    (counter_chain_invariant (NewChanFoo Nat 1 1 0)
        (Reach.init 1 1 0 (by decide))).1.2.1⟩,
   (counter_chain_invariant (NewChanFoo Nat 1 1 0)
        (Reach.init 1 1 0 (by decide))).2 1 1 5 _ rfl (by decide)⟩

/-- The endpoint-recycling scenario of C2 is reachable. -/
theorem recycleChan2_reach : Reach Nat recycleChan2 :=
  Reach.step _ _
    (Reach.step _ _ (Reach.init 1 1 0 (by decide))
      (Step.newEp _ recycleChan1 (Sum.inl 0) 0 1 rfl))
    (Step.cancel _ 0)

/-- C2 (code bug): with `endpointCapacity = 1`, creating an endpoint and then
calling `Cancel` on it (without running `Range`) leaves the cursor live
(`some 0`, not parked), so the next `NewEndpoint` finds no parked slot and
returns `ErrOutOfEndpoints` — contrary to the claim and to `Cancel`'s own doc
comment ("making it available to be reused when NewEndpoint is called"):
only `Range` parks the cursor after observing the cancel. -/
theorem cancel_then_new_endpoint_out_of_endpoints :
    Reach Nat recycleChan2 ∧
    (NewForChanFoo 0 1 recycleChan0).map Prod.snd = some (Sum.inl 0) ∧
    (recycleChan2.entry 0).endpointState = canceled ∧
    (recycleChan2.entry 0).cursor = some 0 ∧
    (NewForChanFoo 0 2 recycleChan2).map Prod.snd =
      some (Sum.inr ErrOutOfEndpoints) :=
  ⟨recycleChan2_reach, rfl, rfl, rfl, rfl⟩

/-- The C3 counterexample state (a closed, non-full channel) is reachable. -/
theorem closedChan_reach : Reach Nat closedChan :=
  Reach.step _ _ (Reach.init 4 1 0 (by decide)) (Step.close _ none)

/-- C3, counterexample: on the reachable closed channel `closedChan`
(`N = 4`, nothing sent yet), `Send(7)` is *not* a no-op on the buffer: the
value is stored at slot 0 and the written marker is set to `1<<1 + 1 = 3`,
because `Send` only consults `channelState` when the buffer is full. -/
theorem send_after_close_writes_buffer :
    Reach Nat closedChan ∧ closedChan.channelState = closed ∧
    (Send 1 7 1 closedChan).map (fun c => c.buffer 0) = some 7 ∧
    closedChan.buffer 0 = 0 ∧
    (Send 1 7 1 closedChan).map (fun c => c.written 0) = some 3 ∧
    closedChan.written 0 = 0 :=
  ⟨closedChan_reach, rfl, rfl, rfl, rfl, rfl⟩

/-- C3 (amended): `Send` on a closed channel still returns without error and
never changes `commit`, and it is a buffer no-op only when the buffer is
full at reservation and the window cannot slide by the time the spin loop
gives up — in that case the completing `Send` leaves buffer, written
markers and `commit` unchanged and only the `write` reservation counter is
incremented.  Every other completing `Send` — the reserved slot below
`end`, or a full buffer whose window slides far enough — stores the value
at `buffer[w & mod]` and sets its written marker to `t<<1 + 1`, exactly as
on an open channel: the two cases are proved as an exhaustive dichotomy. -/
theorem send_after_close_behavior {α : Type} [Inhabited α] (c c' : ChanFoo α)
    (fuel t : Nat) (v : α) (hclosed : c.channelState = closed) :
    (Send fuel v t c = some c' → c'.commit = c.commit) ∧
    (c.write < c.end_ → t ≠ 0 →
      Send (fuel + 1) v t c =
        some (sendPub c.write v t { c with write := c.write + 1 })) ∧
    (c.end_ ≤ c.write → slideProgress c = false →
      Send (fuel + 1) v t c = some { c with write := c.write + 1 }) ∧
    (t ≠ 0 → Send fuel v t c = some c' →
      (c'.buffer (c.write &&& c.mod) = v ∧
        c'.written (c.write &&& c.mod) = (t : Int) * 2 + 1 ∧
        c'.commit = c.commit ∧ c.write < c'.end_) ∨
      (c'.buffer = c.buffer ∧ c'.written = c.written ∧ c'.commit = c.commit ∧
        c.end_ ≤ c.write ∧ c'.end_ ≤ c.write ∧ slideProgress c' = false)) := by
  have hcs : ({ c with write := c.write + 1 } : ChanFoo α).channelState ≠ active := by
    dsimp only
    rw [hclosed]
    decide
  refine ⟨?_, ?_, ?_, ?_⟩
  · intro hs
    exact (Send_commit_write fuel v t c c' hs).1
  · intro hroom ht
    unfold Send sendLoop
    rw [if_neg (by dsimp only; omega), if_neg ht]
  · intro hfull hnp
    unfold Send sendLoop
    rw [if_pos (by dsimp only; omega)]
    have hsb : slideBuffer { c with write := c.write + 1 } =
        ({ c with write := c.write + 1 }, false) :=
      slideBuffer_noprogress _ hnp hcs
    rw [hsb]
  · intro ht hs
    unfold Send at hs
    exact sendLoop_closed_dichotomy c.write v t fuel
      { c with write := c.write + 1 } c' hcs ht hs

/-- A full (`write = end = 1`), closed, size-1 channel whose single endpoint
has already read the slot (`cursor = 1 > begin`), so the window *can*
slide: the full-but-slidable case of C3's dichotomy. -/
def c3slideChan : ChanFoo Nat :=
  { buffer := fun _ => 0
    size := 1
    begin := 0
    end_ := 1
    commit := 1
    mod := 0
    entry := fun _ =>
      { cursor := some 1, endpointState := closed, lastActive := 0, endpointClosed := 0 }
    len := 1
    capacity := 1
    err := none
    channelState := closed
    write := 1
    start := 0
    written := fun _ => 0
    committerActivity := resting }

/-- `c3slideChan` after a completing `Send(7)`: the window slides and the
value is stored although the channel is closed and was full. -/
def c3slideChan' : ChanFoo Nat :=
  match Send 2 7 1 c3slideChan with
  | some cc => cc
  | none => c3slideChan

/-- Witness for C3's amended theorem: on `closedChan` the publishing branch
fires and stores the value, and on the full-but-slidable closed channel
`c3slideChan` the dichotomy's storage disjunct is exercised. -/
theorem send_after_close_behavior_witness :
    (Send 1 (7 : Nat) 1 closedChan =
      some (sendPub closedChan.write 7 1 { closedChan with write := closedChan.write + 1 })) ∧
    ((c3slideChan'.buffer (c3slideChan.write &&& c3slideChan.mod) = 7 ∧
        c3slideChan'.written (c3slideChan.write &&& c3slideChan.mod) = (1 : Int) * 2 + 1 ∧
        c3slideChan'.commit = c3slideChan.commit ∧
        c3slideChan.write < c3slideChan'.end_) ∨
      (c3slideChan'.buffer = c3slideChan.buffer ∧
        c3slideChan'.written = c3slideChan.written ∧
        c3slideChan'.commit = c3slideChan.commit ∧
        c3slideChan.end_ ≤ c3slideChan.write ∧ c3slideChan'.end_ ≤ c3slideChan.write ∧
        slideProgress c3slideChan' = false)) :=
  ⟨(send_after_close_behavior closedChan closedChan 0 1 7 rfl).2.1
      (by decide) (by decide),
   (send_after_close_behavior c3slideChan c3slideChan' 2 1 7 rfl).2.2.2
      (by decide) rfl⟩

/-- A channel with `N = 16` (`mod = 15`), one endpoint at cursor 5, used to
separate the claim's `N < 16` from the code's `mod < 16`. -/
def c16 : ChanFoo Nat :=
  { buffer := fun _ => 0
    size := 16
    begin := 0
    end_ := 16
    commit := 5
    mod := 15
    entry := fun _ =>
      { cursor := some 5, endpointState := active, lastActive := 0, endpointClosed := 0 }
    len := 1
    capacity := 1
    err := none
    channelState := active
    write := 5
    start := 0
    written := fun _ => 0
    committerActivity := resting }

/-- C4, counterexample: at `N = 16` the claim (`advance by one iff N < 16`)
demands the jump branch `begin := slowest = 5`, but the code tests
`mod < 16`, i.e. `15 < 16`, and advances `begin`/`end` by one
(`begin = 1`, `end = 17`). -/
theorem slide_tiny_branch_at_16 :
    c16.mod + 1 = 16 ∧ minCursor c16 = some 5 ∧ c16.begin < 5 ∧ 5 ≤ c16.end_ ∧
    ¬(16 < 16) ∧
    (slideBuffer c16).1.begin = 1 ∧ (slideBuffer c16).1.begin ≠ 5 ∧
    (slideBuffer c16).1.end_ = 17 := by decide

/-- C4 (amended): when `slideBuffer` finds `begin < slowest ≤ end`, it
advances `begin` and `end` each by exactly one iff the buffer size `N`
satisfies `N ≤ 16` — the code compares `mod = N - 1 < 16` — and otherwise
sets `begin = slowest` and `end = slowest + N` (`slowest + mod + 1`). -/
theorem slideBuffer_branches {α : Type} (c : ChanFoo α) (s : Nat)
    (hm : minCursor c = some s) (h1 : c.begin < s) (h2 : s ≤ c.end_) :
    ((slideBuffer c).1.begin = if c.mod < 16 then c.begin + 1 else s) ∧
    ((slideBuffer c).1.end_ = if c.mod < 16 then c.end_ + 1 else s + c.mod + 1) ∧
    (slideBuffer c).2 = true ∧
    (c.mod + 1 = c.size → (c.mod < 16 ↔ c.size ≤ 16)) := by
  by_cases hmod : c.mod < 16
  · refine ⟨?_, ?_, ?_, fun hs => by omega⟩ <;>
      simp [slideBuffer, hm, hmod, h1, h2]
  · refine ⟨?_, ?_, ?_, fun hs => by omega⟩ <;>
      simp [slideBuffer, hm, hmod, h1, h2]

/-- Witness for C4's amended theorem on `c16` (truncated to the tiny branch
since `mod = 15 < 16`). -/
theorem slideBuffer_branches_witness :
    ((slideBuffer c16).1.begin = if c16.mod < 16 then c16.begin + 1 else 5) ∧
    ((slideBuffer c16).1.end_ = if c16.mod < 16 then c16.end_ + 1 else 5 + c16.mod + 1) ∧
    (slideBuffer c16).2 = true ∧
    (c16.mod + 1 = c16.size → (c16.mod < 16 ↔ c16.size ≤ 16)) :=
  slideBuffer_branches c16 5 (by decide) (by decide) (by decide)

/-- C5 (code bug at `bufferCapacity = 0`): for positive capacities
`NewChanFoo` allocates the least power of two at least the capacity
(5 → 8, 400 → 512) and initializes `begin = commit = write = 0`,
`end = N`; but at `bufferCapacity = 0` the amd64 evaluation of
`1 << uint(Ceil(Log2(0)))` is `0`, not the claimed (and doc-commented)
minimum of `1`, so buffer, written and `end` are all empty/zero. -/
theorem newChan_size_eval :
    chanSize 0 = 0 ∧ (NewChanFoo Nat 0 1 0).size = 0 ∧
    (NewChanFoo Nat 0 1 0).end_ = 0 ∧ ¬1 ≤ (NewChanFoo Nat 0 1 0).size ∧
    (NewChanFoo Nat 5 1 0).size = 8 ∧ (NewChanFoo Nat 5 1 0).begin = 0 ∧
    (NewChanFoo Nat 5 1 0).commit = 0 ∧ (NewChanFoo Nat 5 1 0).write = 0 ∧
    (NewChanFoo Nat 5 1 0).end_ = 8 ∧ (NewChanFoo Nat 400 1 0).size = 512 := by
  decide

/-- C6: the endpoint record created by `NewForChanFoo(keep)` starts at cursor
`commit - min(keep, commit - begin)`, equivalently `max(begin, commit - keep)`,
where `commit` is the value returned by the `commitData` call made inside and
`begin ≤ commit` (the window invariant); for `keep = 2^64 - 1` (`ReplayAll`)
the `uint64` comparison `commit - begin ≤ keep` always holds (as
`commit < 2^64`), so the cursor is exactly `begin`. -/
theorem new_endpoint_start_cursor {α : Type} [Inhabited α] (c c1 c' : ChanFoo α)
    (keep now i m : Nat)
    (hcd : commitData c = some (c1, m))
    (hn : NewForChanFoo keep now c = some (c', Sum.inl i))
    (hbm : c1.begin ≤ m) (hm64 : m < 2 ^ 64) :
    (c'.entry i).cursor = some (m - min keep (m - c1.begin)) ∧
    (c'.entry i).cursor = some (max c1.begin (m - keep)) ∧
    (keep = 2 ^ 64 - 1 → (c'.entry i).cursor = some c1.begin) := by
  have hcur := newFor_inl_cursor c c1 c' keep now i m hcd hn
  refine ⟨?_, ?_, ?_⟩
  · rw [hcur]
    congr 1
    split <;> omega
  · rw [hcur]
    congr 1
    split <;> omega
  · intro hk
    subst hk
    rw [hcur]
    congr 1
    rw [if_pos (by omega)]

/-- The channel produced by `NewEndpoint(keep = 3)` on a fresh
`NewChanFoo(1, 1)` channel. -/
def c6chan : ChanFoo Nat :=
  match NewForChanFoo 3 5 recycleChan0 with
  | some (c, _) => c
  | none => recycleChan0

/-- The channel produced by `NewEndpoint(keep = ReplayAll)` on a fresh
`NewChanFoo(1, 1)` channel. -/
def c6chanReplay : ChanFoo Nat :=
  match NewForChanFoo (2 ^ 64 - 1) 5 recycleChan0 with
  | some (c, _) => c
  | none => recycleChan0

/-- Witness for C6 on a fresh channel (`commit = begin = 0`), with
`keep = 3` and with `keep = ReplayAll`. -/
theorem new_endpoint_start_cursor_witness :
    (c6chan.entry 0).cursor = some (0 - min 3 (0 - recycleChan0.begin)) ∧
    (c6chan.entry 0).cursor = some (max recycleChan0.begin (0 - 3)) ∧
    (c6chanReplay.entry 0).cursor = some recycleChan0.begin :=
  ⟨(new_endpoint_start_cursor recycleChan0 recycleChan0 c6chan 3 5 0 0 rfl rfl
      (by decide) (by decide)).1,
   (new_endpoint_start_cursor recycleChan0 recycleChan0 c6chan 3 5 0 0 rfl rfl
      (by decide) (by decide)).2.1,
   (new_endpoint_start_cursor recycleChan0 recycleChan0 c6chanReplay (2 ^ 64 - 1) 5 0 0
      rfl rfl (by decide) (by decide)).2.2 rfl⟩

/-- C7: in `Range`'s delivery loop, `maxAge = 0` disables age filtering; for
`maxAge ≠ 0` a slot is skipped (not emitted) exactly when its written marker
shifted right by one is non-zero and at most `nanos - maxAge` (with `nanos`
the nanoseconds since `start` measured at the check); a marker of `0`
(a `FastSend` slot) is never filtered. -/
theorem range_age_filter (maxAge nanos marker : Int) :
    rangeEmit 0 nanos marker = true ∧
    (maxAge ≠ 0 →
      (rangeEmit maxAge nanos marker = false ↔
        Int.fdiv marker 2 ≠ 0 ∧ Int.fdiv marker 2 ≤ nanos - maxAge)) ∧
    (marker = 0 → rangeEmit maxAge nanos marker = true) := by
  refine ⟨?_, ?_, ?_⟩
  · simp [rangeEmit]
  · intro hma
    unfold rangeEmit
    rw [if_pos hma]
    split
    · rename_i hcond
      simp [hcond]
    · rename_i hcond
      simp [hcond]
  · intro h0
    subst h0
    unfold rangeEmit
    split
    · rw [if_neg (by simp [Int.fdiv])]
    · rfl

/-- Witness for C7 at `maxAge = 5`, `nanos = 10`, markers `4` and `0`. -/
theorem range_age_filter_witness :
    rangeEmit 0 10 4 = true ∧
    (rangeEmit 5 10 4 = false ↔
      Int.fdiv 4 2 ≠ 0 ∧ Int.fdiv 4 2 ≤ 10 - 5) ∧
    rangeEmit 5 10 0 = true :=
  ⟨(range_age_filter 0 10 4).1,
   (range_age_filter 5 10 4).2.1 (by decide),
   (range_age_filter 5 10 0).2.2 rfl⟩

/-- C8: `Close` is idempotent: starting from an `active` channel, the first
`Close(e1)` sets `channelState = closed` and records `err = e1`, and a second
`Close(e2)` is the identity (the state CAS fails), so the state stays
`closed` and the error stays `e1`. -/
theorem close_idempotent {α : Type} (c : ChanFoo α) (e1 e2 : Option String)
    (hc : c.channelState = active) :
    (Close e1 c).channelState = closed ∧ (Close e1 c).err = e1 ∧
    Close e2 (Close e1 c) = Close e1 c := by
  refine ⟨?_, ?_, ?_⟩
  · unfold Close
    rw [if_pos hc]
  · unfold Close
    rw [if_pos hc]
  · unfold Close
    rw [if_pos hc]
    rw [if_neg (by dsimp only; decide)]

/-- Witness for C8 on a fresh channel with `e1 = some "bye"`, `e2 = none`. -/
theorem close_idempotent_witness :
    (Close (some "bye") (NewChanFoo Nat 1 1 0)).channelState = closed ∧
    (Close (some "bye") (NewChanFoo Nat 1 1 0)).err = some "bye" ∧
    Close none (Close (some "bye") (NewChanFoo Nat 1 1 0)) =
      Close (some "bye") (NewChanFoo Nat 1 1 0) :=
  close_idempotent (NewChanFoo Nat 1 1 0) (some "bye") none rfl

/-- C9: `end - begin = size` (with `size = N = mod + 1` by construction, see
`Inv`) holds in every reachable state; at construction `begin = 0` and
`end = size = chanSize n`; and no operation other than `slideBuffer` writes
`begin` or `end`: the `FastSend` publish, the `Send` reservation and publish,
`Close`, `Cancel`, the `Range` cursor moves, `commitData` and
`NewForChanFoo` all leave both counters unchanged. -/
theorem window_width_invariant {α : Type} [Inhabited α] (c c1 c2 c3 : ChanFoo α)
    (n p t i keep now m w tt : Nat) (r : Nat ⊕ ChannelError) (e : Option String)
    (v : α) (hr : Reach α c)
    (hcd : commitData c1 = some (c2, m))
    (hnf : NewForChanFoo keep now c1 = some (c3, r)) :
    c.end_ = c.begin + c.size ∧
    ((NewChanFoo α n p t).begin = 0 ∧ (NewChanFoo α n p t).end_ = chanSize n ∧
      (NewChanFoo α n p t).size = chanSize n) ∧
    ((fastSendPub v c).begin = c.begin ∧ (fastSendPub v c).end_ = c.end_) ∧
    ((sendPub w v tt c).begin = c.begin ∧ (sendPub w v tt c).end_ = c.end_) ∧
    (({ c with write := c.write + 1 } : ChanFoo α).begin = c.begin ∧
      ({ c with write := c.write + 1 } : ChanFoo α).end_ = c.end_) ∧
    ((Close e c).begin = c.begin ∧ (Close e c).end_ = c.end_) ∧
    ((Cancel i c).begin = c.begin ∧ (Cancel i c).end_ = c.end_) ∧
    ((rangeAdvance i c).begin = c.begin ∧ (rangeAdvance i c).end_ = c.end_) ∧
    ((rangePark i c).begin = c.begin ∧ (rangePark i c).end_ = c.end_) ∧
    ((rangeCancel i c).begin = c.begin ∧ (rangeCancel i c).end_ = c.end_) ∧
    (c2.begin = c1.begin ∧ c2.end_ = c1.end_) ∧
    (c3.begin = c1.begin ∧ c3.end_ = c1.end_) := by
  obtain ⟨h1, h2, h3, h4, h5, h6⟩ := inv_of_reach c hr
  obtain ⟨_, _, _, g1, g2, _⟩ := commitData_some c1 c2 m hcd
  exact ⟨by omega, ⟨rfl, rfl, rfl⟩, ⟨rfl, rfl⟩, ⟨rfl, rfl⟩, ⟨rfl, rfl⟩,
    close_begin_end c e, cancel_begin_end c i, rangeAdvance_begin_end c i,
    rangePark_begin_end c i, ⟨rfl, rfl⟩, ⟨g1, g2⟩,
    newFor_begin_end c1 c3 r keep now hnf⟩

/-- Witness for C9 on a fresh `NewChanFoo(1, 1)` channel, with the
`commitData` and `NewForChanFoo` runs that a `NewEndpoint(3)` performs. -/
theorem window_width_invariant_witness :
    recycleChan0.end_ = recycleChan0.begin + recycleChan0.size ∧
    ((NewChanFoo Nat 1 1 0).begin = 0 ∧ (NewChanFoo Nat 1 1 0).end_ = chanSize 1 ∧
      (NewChanFoo Nat 1 1 0).size = chanSize 1) ∧
    ((fastSendPub 0 recycleChan0).begin = recycleChan0.begin ∧
      (fastSendPub 0 recycleChan0).end_ = recycleChan0.end_) ∧
    ((sendPub 0 0 1 recycleChan0).begin = recycleChan0.begin ∧
      (sendPub 0 0 1 recycleChan0).end_ = recycleChan0.end_) ∧
    (({ recycleChan0 with write := recycleChan0.write + 1 } : ChanFoo Nat).begin =
        recycleChan0.begin ∧
      ({ recycleChan0 with write := recycleChan0.write + 1 } : ChanFoo Nat).end_ =
        recycleChan0.end_) ∧
    ((Close none recycleChan0).begin = recycleChan0.begin ∧
      (Close none recycleChan0).end_ = recycleChan0.end_) ∧
    ((Cancel 0 recycleChan0).begin = recycleChan0.begin ∧
      (Cancel 0 recycleChan0).end_ = recycleChan0.end_) ∧
    ((rangeAdvance 0 recycleChan0).begin = recycleChan0.begin ∧
      (rangeAdvance 0 recycleChan0).end_ = recycleChan0.end_) ∧
    ((rangePark 0 recycleChan0).begin = recycleChan0.begin ∧
      (rangePark 0 recycleChan0).end_ = recycleChan0.end_) ∧
    ((rangeCancel 0 recycleChan0).begin = recycleChan0.begin ∧
      (rangeCancel 0 recycleChan0).end_ = recycleChan0.end_) ∧
    (recycleChan0.begin = recycleChan0.begin ∧ recycleChan0.end_ = recycleChan0.end_) ∧
    (c6chan.begin = recycleChan0.begin ∧ c6chan.end_ = recycleChan0.end_) :=
  window_width_invariant recycleChan0 recycleChan0 recycleChan0 c6chan
    1 1 0 0 3 5 0 0 1 (Sum.inl 0) none 0
    (Reach.init 1 1 0 (by decide)) rfl rfl

/-- C10: when `NewForChanFoo` recycles a parked slot of a full endpoint table,
it reinitializes only `cursor` (to the computed start), `endpointState` (to
the current `channelState`) and `lastActive` (to now); the `endpointClosed`
latch of the recycled record carries over unchanged, and every other table
entry is untouched (`commitData` inside changes no entry). -/
theorem recycle_frame {α : Type} [Inhabited α] (c c1 c' : ChanFoo α)
    (keep now i m : Nat)
    (hcd : commitData c = some (c1, m))
    (hfull : c.len = c.capacity)
    (hn : NewForChanFoo keep now c = some (c', Sum.inl i)) :
    (c'.entry i).endpointClosed = (c.entry i).endpointClosed ∧
    (c'.entry i).cursor = some (if m - c.begin ≤ keep then c.begin else m - keep) ∧
    (c'.entry i).endpointState = c.channelState ∧
    (c'.entry i).lastActive = now ∧
    (∀ j, j ≠ i → c'.entry j = c.entry j) ∧
    (c.entry i).cursor = none ∧ i < c.len :=
  newFor_recycle c c1 c' keep now i m hcd hfull hn

/-- A full (capacity-1) endpoint table whose single record is parked with the
`endpointClosed` latch set: the state a drained-closed endpoint leaves. -/
def c10chan : ChanFoo Nat :=
  { buffer := fun _ => 0
    size := 1
    begin := 0
    end_ := 1
    commit := 0
    mod := 0
    entry := fun _ =>
      { cursor := none, endpointState := canceled, lastActive := 3, endpointClosed := 1 }
    len := 1
    capacity := 1
    err := none
    channelState := active
    write := 0
    start := 0
    written := fun _ => 0
    committerActivity := resting }

/-- `c10chan` after `NewEndpoint(0)` recycled its parked record. -/
def c10chan' : ChanFoo Nat :=
  match NewForChanFoo 0 7 c10chan with
  | some (cc, _) => cc
  | none => c10chan

/-- Witness for C10 on `c10chan`: the recycled record keeps
`endpointClosed = 1` while cursor, state and activity are reset. -/
theorem recycle_frame_witness :
    (c10chan'.entry 0).endpointClosed = (c10chan.entry 0).endpointClosed ∧
    (c10chan'.entry 0).cursor =
      some (if 0 - c10chan.begin ≤ 0 then c10chan.begin else 0 - 0) ∧
    (c10chan'.entry 0).endpointState = c10chan.channelState ∧
    (c10chan'.entry 0).lastActive = 7 ∧
    (c10chan.entry 0).cursor = none ∧ 0 < c10chan.len :=
  ⟨(recycle_frame c10chan c10chan c10chan' 0 7 0 0 rfl rfl rfl).1,
   (recycle_frame c10chan c10chan c10chan' 0 7 0 0 rfl rfl rfl).2.1,
   (recycle_frame c10chan c10chan c10chan' 0 7 0 0 rfl rfl rfl).2.2.1,
   (recycle_frame c10chan c10chan c10chan' 0 7 0 0 rfl rfl rfl).2.2.2.1,
   (recycle_frame c10chan c10chan c10chan' 0 7 0 0 rfl rfl rfl).2.2.2.2.2.1,
   (recycle_frame c10chan c10chan c10chan' 0 7 0 0 rfl rfl rfl).2.2.2.2.2.2⟩

end Multicast
